import Mathlib

/-!
Verification of the streaming chat backend (`src/backend/app`).

This file gives a shallow embedding, in Lean, of the parts of the Python
source that the specification's claims are about, and proves (or refutes)
each claim against that embedding.  Text is modelled as `List Char`
(Python `str` indexing/slicing is by code point, matching `List Char`),
machine integers as `Nat`/`Int`, database rows as records in lists, and
fallible operations as `Option`/`Except`.
-/

namespace AgentSpec

/-! ## String helpers (Python `in`, `find`, slicing, `strip`)

`findSub needle hay` is Python's `hay.find(needle)` (first index, `none`
for `-1`); `containsSub needle hay` is Python's `needle in hay`. -/

def findSub (needle : List Char) : List Char → Option Nat
  | [] => if needle.isPrefixOf [] then some 0 else none
  | c :: t =>
    if needle.isPrefixOf (c :: t) then some 0
    else (findSub needle t).map Nat.succ

def containsSub (needle hay : List Char) : Bool :=
  (findSub needle hay).isSome

/-- Python `str.isspace` characters relevant to `str.strip()`. -/
def pyIsSpace (c : Char) : Bool :=
  c = ' ' || c = '\t' || c = '\n' || c = '\r' || c = '\x0b' || c = '\x0c'

/-- Python `s.strip()` (no argument): trim whitespace from both ends. -/
def pyStrip (s : List Char) : List Char :=
  ((s.dropWhile pyIsSpace).reverse.dropWhile pyIsSpace).reverse

/-- Python `s.strip(chars)`: trim any of the given characters from both ends. -/
def pyStripChars (chars : List Char) (s : List Char) : List Char :=
  ((s.dropWhile (chars.contains ·)).reverse.dropWhile (chars.contains ·)).reverse

theorem findSub_some_le (needle hay : List Char) (i : Nat)
    (h : findSub needle hay = some i) : i + needle.length ≤ hay.length := by
  induction hay generalizing i with
  | nil =>
    by_cases hp : needle.isPrefixOf ([] : List Char)
    · simp [findSub, hp] at h
      subst h
      simpa using (List.isPrefixOf_iff_prefix.mp hp).length_le
    · simp [findSub, hp] at h
  | cons a t ih =>
    by_cases hp : needle.isPrefixOf (a :: t)
    · simp [findSub, hp] at h
      subst h
      simpa using (List.isPrefixOf_iff_prefix.mp hp).length_le
    · simp [findSub, hp] at h
      obtain ⟨j, hj, rfl⟩ := h
      have := ih j hj
      simp only [List.length_cons]
      omega

/-! ## Data model: chat messages (`app/models/chat.py`, fields the core reads)

Only the columns that the claimed operations consult are modelled. -/

structure Msg where
  mid : Nat
  sessionId : Nat
  createdAt : Nat
  role : String
  isDeleted : Bool
  isSummarized : Bool
  isSummary : Bool
  totalTokens : Option Nat
deriving Repr, DecidableEq

/-- SQL `ORDER BY created_at DESC ... .first()`: the row with the greatest
`created_at` (on a tie, the earliest row in storage order, which SQL leaves
unspecified; the theorems below assume strict ordering so ties play no role). -/
def latestByCreatedAt : List Msg → Option Msg
  | [] => none
  | m :: rest =>
    match latestByCreatedAt rest with
    | none => some m
    | some m' => if m'.createdAt > m.createdAt then some m' else some m

/-- Embeds `ChatService.calculate_current_context_tokens`
(`chat_service.py:560-596`): the latest non-deleted assistant message's
`total_tokens`, or 0 when there is none or its `total_tokens` is NULL/0
(Python `not latest_message.total_tokens`; for a stored 0 the returned
value is 0 either way). -/
def calculate_current_context_tokens (db : List Msg) (sid : Nat) : Nat :=
  let candidates := db.filter
    (fun m => m.sessionId == sid && !m.isDeleted && m.role == "assistant")
  match latestByCreatedAt candidates with
  | none => 0
  | some m =>
    match m.totalTokens with
    | none => 0
    | some t => t

/-! ## Context manager: summarization trigger (`chat_service.py:831-837`)

Line 831 reads `model_max_context = model_config.max_context_length or 32768`;
`max_context_length` is a 32-bit `Integer` column (`ai_model.py:24`), so a
falsy value is `0` or `NULL`, both rendered here as `0`.  The guard at line
834 is `session.current_context_tokens >= int(model_max_context * 0.9)`,
evaluated in IEEE binary64 arithmetic: `0.9` is the double
`fp0_9Num / 2^53`, the exact product is rounded to the nearest double (ties
to even) within its binade, and `int()` truncates toward zero.
`int_mul_0_9` reproduces that computation bit-exactly for every `n < 2^53`
(where the int-to-double conversion of `n` is itself exact and no overflow
can occur), which covers the whole range of the column. -/

def fp0_9Num : Nat := 8106479329266893

def floorLog2Aux : Nat → Nat → Nat
  | 0, _ => 0
  | f + 1, n => if 2 ≤ n then floorLog2Aux f (n / 2) + 1 else 0

def floorLog2 (n : Nat) : Nat := floorLog2Aux 128 n

def roundHalfEven (n d : Nat) : Nat :=
  if 2 * (n % d) < d then n / d
  else if d < 2 * (n % d) then n / d + 1
  else if (n / d) % 2 = 0 then n / d else n / d + 1

def int_mul_0_9 (n : Nat) : Nat :=
  if n = 0 then 0
  else
    let N := n * fp0_9Num
    let L := floorLog2 N
    let s := roundHalfEven N (2 ^ (L - 52))
    if 105 ≤ L then s * 2 ^ (L - 105) else s / 2 ^ (105 - L)

def model_max_context (maxContextLength : Nat) : Nat :=
  if maxContextLength = 0 then 32768 else maxContextLength

def summarizeThreshold (maxContextLength : Nat) : Nat :=
  int_mul_0_9 (model_max_context maxContextLength)

def should_generate_summary (currentContextTokens maxContextLength : Nat) : Bool :=
  currentContextTokens ≥ summarizeThreshold maxContextLength

theorem floorLog2Aux_spec : ∀ f n : Nat, 1 ≤ n → n < 2 ^ f →
    2 ^ floorLog2Aux f n ≤ n ∧ n < 2 ^ (floorLog2Aux f n + 1) := by
  intro f
  induction f with
  | zero =>
    intro n h1 h2
    norm_num at h2
    omega
  | succ f ih =>
    intro n h1 h2
    by_cases h : 2 ≤ n
    · have hd1 : 1 ≤ n / 2 := by omega
      have hd2 : n / 2 < 2 ^ f := by
        have e : (2 : Nat) ^ (f + 1) = 2 * 2 ^ f := by ring
        omega
      obtain ⟨ha, hb⟩ := ih (n / 2) hd1 hd2
      simp only [floorLog2Aux, if_pos h]
      have e1 : (2 : Nat) ^ (floorLog2Aux f (n / 2) + 1) =
          2 * 2 ^ floorLog2Aux f (n / 2) := by ring
      have e2 : (2 : Nat) ^ (floorLog2Aux f (n / 2) + 1 + 1) =
          4 * 2 ^ floorLog2Aux f (n / 2) := by ring
      omega
    · have hn1 : n = 1 := by omega
      subst hn1
      norm_num [floorLog2Aux]

theorem floorLog2_spec (n : Nat) (h1 : 1 ≤ n) (h2 : n < 2 ^ 128) :
    2 ^ floorLog2 n ≤ n ∧ n < 2 ^ (floorLog2 n + 1) :=
  floorLog2Aux_spec 128 n h1 h2

theorem roundHalfEven_bounds (n d : Nat) (hd : 0 < d) :
    2 * n ≤ 2 * (roundHalfEven n d * d) + d ∧
      2 * (roundHalfEven n d * d) ≤ 2 * n + d := by
  have hmod := Nat.div_add_mod n d
  have hlt : n % d < d := Nat.mod_lt n hd
  unfold roundHalfEven
  set q := n / d with hq
  set r := n % d with hr
  have h1 : q * d = d * q := Nat.mul_comm _ _
  have h2 : (q + 1) * d = d * q + d := by ring
  split_ifs with hA hB hC
  · rw [h1]
    set T := d * q
    omega
  · rw [h2]
    set T := d * q
    omega
  · rw [h1]
    set T := d * q
    omega
  · rw [h2]
    set T := d * q
    omega

theorem int_mul_0_9_eq_floor (n : Nat) (hn1 : 1 ≤ n) (hn2 : n < 2 ^ 31) :
    int_mul_0_9 n = 9 * n / 10 := by
  have hn0 : ¬ n = 0 := by omega
  have hn31 : n < 2147483648 := by
    have e : (2 : Nat) ^ 31 = 2147483648 := by norm_num
    omega
  simp only [int_mul_0_9, if_neg hn0]
  set N := n * fp0_9Num with hN
  have hfp : fp0_9Num = 8106479329266893 := rfl
  have hNlow : 4503599627370496 ≤ N := by
    rw [hN, hfp]; omega
  have hNhigh : N < 19342813113834066795298816 := by
    rw [hN, hfp]; omega
  have hspec : 2 ^ floorLog2 N ≤ N ∧ N < 2 ^ (floorLog2 N + 1) := by
    apply floorLog2_spec
    · omega
    · have e : (2 : Nat) ^ 128 = 340282366920938463463374607431768211456 := by
        norm_num
      omega
  set L := floorLog2 N with hL
  have hL52 : 52 ≤ L := by
    have e52 : (2 : Nat) ^ 52 = 4503599627370496 := by norm_num
    have h : (2 : Nat) ^ 52 < 2 ^ (L + 1) := by omega
    have := (Nat.pow_lt_pow_iff_right (by norm_num : 1 < 2)).mp h
    omega
  have hL83 : L ≤ 83 := by
    have e84 : (2 : Nat) ^ 84 = 19342813113834066795298816 := by norm_num
    have h : (2 : Nat) ^ L < 2 ^ 84 := by omega
    have := (Nat.pow_lt_pow_iff_right (by norm_num : 1 < 2)).mp h
    omega
  rw [if_neg (by omega : ¬ 105 ≤ L)]
  set D := 2 ^ (L - 52) with hD
  set E := 2 ^ (105 - L) with hE
  have hDpos : 0 < D := by rw [hD]; positivity
  have hDle : D ≤ 2147483648 := by
    rw [hD]
    calc (2 : Nat) ^ (L - 52) ≤ 2 ^ 31 :=
          Nat.pow_le_pow_right (by norm_num) (by omega)
      _ = 2147483648 := by norm_num
  have hDE : D * E = 9007199254740992 := by
    rw [hD, hE, ← pow_add]
    have e : L - 52 + (105 - L) = 53 := by omega
    rw [e]; norm_num
  obtain ⟨hb1, hb2⟩ := roundHalfEven_bounds N D hDpos
  set s := roundHalfEven N D with hs
  have hkr := Nat.div_add_mod (9 * n) 10
  have hr10 : 9 * n % 10 < 10 := Nat.mod_lt _ (by norm_num)
  set k := 9 * n / 10 with hk
  set r := 9 * n % 10 with hr
  have h10N : 10 * N = 90071992547409920 * k + 9007199254740992 * r + 2 * n := by
    rw [hN, hfp]; omega
  have hlow : k * E ≤ s := by
    have step : k * E * (20 * D) < (s + 1) * (20 * D) := by
      have e1 : k * E * (20 * D) = 20 * (D * E) * k := by ring
      have e2 : (s + 1) * (20 * D) = 20 * (s * D) + 20 * D := by ring
      rw [e1, e2, hDE]
      generalize hA : s * D = A at hb1 hb2 ⊢
      omega
    have := lt_of_mul_lt_mul_right step (Nat.zero_le (20 * D))
    exact Nat.lt_succ_iff.mp this
  have hup : s < (k + 1) * E := by
    have step : s * (20 * D) < (k + 1) * E * (20 * D) := by
      have e1 : s * (20 * D) = 20 * (s * D) := by ring
      have e2 : (k + 1) * E * (20 * D) = 20 * (D * E) * k + 20 * (D * E) := by ring
      rw [e1, e2, hDE]
      generalize hA : s * D = A at hb1 hb2 ⊢
      omega
    exact lt_of_mul_lt_mul_right step (Nat.zero_le (20 * D))
  exact Nat.div_eq_of_lt_le hlow hup

/-! ## Context manager: `ChatService.edit_message` (`chat_service.py:380-477`)

The database is a list of `Msg` rows (possibly several sessions).  Row
mutation through the ORM is modelled as a by-`message_id` map over the list.
`ownedByUser sid` stands for the ownership query on `chat_sessions`
(`chat_service.py:404-412`).  The returned triple also mirrors the session
counter updates of lines 465-471 (`message_count`, `current_context_tokens`);
`last_activity_at` and the commit are omitted as no claim concerns them. -/

/-- The restore loop of `chat_service.py:432-441`: clear `is_summarized` on
the session's summarized rows at or before the edited message. -/
def editRestoreStep (original : Msg) (db : List Msg) : List Msg :=
  db.map (fun x =>
    if x.sessionId == original.sessionId && x.isSummarized
        && x.createdAt ≤ original.createdAt then
      { x with isSummarized := false }
    else x)

/-- `chat_service.py:443-446`: soft-delete the found summary message. -/
def editDeleteSummaryStep (s : Msg) (db : List Msg) : List Msg :=
  db.map (fun x => if x.mid == s.mid then { x with isDeleted := true } else x)

/-- `chat_service.py:449`: soft-delete the original message. -/
def editDeleteOriginalStep (original : Msg) (db : List Msg) : List Msg :=
  db.map (fun x =>
    if x.mid == original.mid then { x with isDeleted := true } else x)

/-- `chat_service.py:452-462`: soft-delete every not-yet-deleted message of
the session with `created_at` strictly after the edited message. -/
def editDeleteLaterStep (original : Msg) (db : List Msg) : List Msg :=
  db.map (fun x =>
    if x.sessionId == original.sessionId && x.createdAt > original.createdAt
        && !x.isDeleted then
      { x with isDeleted := true }
    else x)

def edit_message (db : List Msg) (ownedByUser : Nat → Bool) (messageId : Nat) :
    Option (List Msg × Nat × Nat) :=
  match db.find? (fun m => m.mid == messageId) with
  | none => none
  | some original =>
    if !ownedByUser original.sessionId then none
    else
      let sid := original.sessionId
      -- step 1 (`chat_service.py:419-425`): locate the non-deleted summary message
      let summaryMessage := (db.filter
        (fun x => x.sessionId == sid && x.isSummary && !x.isDeleted)).head?
      -- step 2 (`chat_service.py:428-446`): if the edited message was summarized,
      -- clear `is_summarized` on it and on every summarized message at or before
      -- it, and soft-delete the summary message (when one exists)
      let db1 :=
        if original.isSummarized then
          let restored := editRestoreStep original db
          match summaryMessage with
          | none => restored
          | some s => editDeleteSummaryStep s restored
        else db
      -- step 3 (`chat_service.py:449`): soft-delete the original message
      let db2 := editDeleteOriginalStep original db1
      -- step 4 (`chat_service.py:452-462`): soft-delete later messages
      let db3 := editDeleteLaterStep original db2
      -- step 5 (`chat_service.py:465-471`): recompute session counters
      some (db3,
        (db3.filter (fun x => x.sessionId == sid && !x.isDeleted)).length,
        calculate_current_context_tokens db3 sid)

/-! ## Title generation (`chat_service.py:1369-1549`)

`generate_title_with_llm` embeds the post-processing that
`ChatService._generate_title_with_llm` applies to the raw LLM response
(`chat_service.py:1508-1549`); the network call itself is the `response`
argument.  `modelFound` is the `get_model_by_id` lookup at line 1495. -/

def titleStripSet : List Char := "\"'「」《》『』【】“”‘’。，！？、;：".toList

def defaultTitle : List Char := "对话记录".toList

def generate_title_with_llm (modelFound : Bool) (response : List Char) : List Char :=
  if !modelFound then defaultTitle
  else
    -- title = response.get("content", "").strip()
    let title := pyStrip response
    -- if '<think>' in title: title = title.split('</think>')[-1].strip()
    let title :=
      if containsSub "<think>".toList title then
        match findSub "</think>".toList title with
        | some i => pyStrip (title.drop (i + 8))
        | none => pyStrip title
      else title
    -- title = title.strip('"\'「」《》『』【】“”‘’。，！？、;：')
    let title := pyStripChars titleStripSet title
    -- if '\n' in title: title = title.split('\n')[0].strip()
    let title :=
      if containsSub "\n".toList title then
        match findSub "\n".toList title with
        | some i => pyStrip (title.take i)
        | none => pyStrip title
      else title
    -- if title.startswith('标题：') or title.startswith('标题:'): title = title[3:].strip()
    let title :=
      if "标题：".toList.isPrefixOf title || "标题:".toList.isPrefixOf title then
        pyStrip (title.drop 3)
      else title
    if title.isEmpty || title.length < 2 then defaultTitle
    else if title.length > 30 then defaultTitle
    else title

/-- Embeds `ChatService.generate_title` (`chat_service.py:1369-1428`): store the
generated title on the session and push a `SESSION_TITLE_UPDATED` (6000) frame
over the WebSocket (`_push_title_update`, lines 1430-1461, sends `event_id "0"`).
Returns the stored title together with the pushed frame's `(event_id, event_type)`,
or `none` when nothing is stored. -/
def generate_title (sessionFound : Bool) (messageCount : Nat)
    (nonDeletedMessages : Nat) (modelFound : Bool) (response : List Char) :
    Option (List Char × Nat × Nat) :=
  if !sessionFound then none
  else if messageCount ≠ 2 then none
  else if nonDeletedMessages < 2 then none
  else
    let title := generate_title_with_llm modelFound response
    -- `if title:` — the processed title is never empty, so it is always stored
    if title.isEmpty then none
    else some (title, 0, 6000)

/-! ## Rate limiting (`core/redis_client.py:390-427`, `middleware/rate_limit.py:46-89`)

`check_rate_limit` embeds the Lua script `INCR` + first-write `EXPIRE`; Redis
executes a Lua script atomically, which the embedding reflects by making the
increment and the conditional expiry a single state transition. -/

structure RateState where
  count : Nat
  ttl : Option Nat
deriving Repr, DecidableEq

def check_rate_limit (st : RateState) (maxRequests windowSeconds : Nat) :
    RateState × Bool × Nat :=
  let current := st.count + 1
  let st' : RateState :=
    { count := current
      ttl := if current = 1 then some windowSeconds else st.ttl }
  if current > maxRequests then (st', false, 0)
  else (st', true, maxRequests - current)

structure HttpResponse where
  statusCode : Nat
  retryAfter : Option String
  rateLimitLimit : Option String
  rateLimitRemaining : Option String
  rateLimitReset : Option String
deriving Repr, DecidableEq

/-- Embeds `RateLimitMiddleware.dispatch` for a non-excluded route: on rejection
an HTTP 429 with `Retry-After`/`X-RateLimit-*` headers, otherwise the downstream
response (status 200 here) with the `X-RateLimit-*` headers appended. -/
def rate_limit_dispatch (st : RateState) (maxRequests windowSeconds : Nat) :
    RateState × HttpResponse :=
  let (st', allowed, remaining) := check_rate_limit st maxRequests windowSeconds
  if !allowed then
    (st', { statusCode := 429
            retryAfter := some (toString windowSeconds)
            rateLimitLimit := some (toString maxRequests)
            rateLimitRemaining := some "0"
            rateLimitReset := some (toString windowSeconds) })
  else
    (st', { statusCode := 200
            retryAfter := none
            rateLimitLimit := some (toString maxRequests)
            rateLimitRemaining := some (toString remaining)
            rateLimitReset := some (toString windowSeconds) })

def windowRequestLoop (maxRequests windowSeconds : Nat) (st : RateState) :
    Nat → HttpResponse
  | 0 => (rate_limit_dispatch st maxRequests windowSeconds).2
  | k + 1 =>
    windowRequestLoop maxRequests windowSeconds
      (rate_limit_dispatch st maxRequests windowSeconds).1 k

/-- The response to the n-th request (1-based) of one user inside a single
fixed window (no expiry fires in between), starting from a fresh counter. -/
def nthWindowResponse (maxRequests windowSeconds n : Nat) : HttpResponse :=
  windowRequestLoop maxRequests windowSeconds { count := 0, ttl := none } (n - 1)

/-! ## WebSocket connection manager (`api/endpoints/chat_ws.py:22-162`)

WebSocket handles and heartbeat tasks are identified by numbers.  The
`closedSockets` and `cancelledTasks` fields record every socket close and
task cancellation the manager performs, so that "the older connection gets
closed" is an observable statement about the model. -/

structure ConnManager where
  activeConnections : List (String × Nat)
  heartbeatTasks : List (String × Nat)
  acceptedSockets : List Nat
  closedSockets : List Nat
  cancelledTasks : List Nat
  nextTask : Nat
deriving Repr, DecidableEq

/-- Python dict assignment `d[k] = v`: replace the binding if present, else add. -/
def upsert (l : List (String × Nat)) (k : String) (v : Nat) : List (String × Nat) :=
  if l.any (fun p => p.1 == k) then
    l.map (fun p => if p.1 == k then (k, v) else p)
  else l ++ [(k, v)]

/-- Embeds `ConnectionManager.connect` (`chat_ws.py:31-44`): accept the socket,
store it in `active_connections[user_id]`, and start a heartbeat task stored in
`heartbeat_tasks[user_id]`.  The method contains no `close()` call and no
cancellation of a previously stored heartbeat task. -/
def ConnManager.connect (m : ConnManager) (userId : String) (ws : Nat) : ConnManager :=
  { m with
    acceptedSockets := ws :: m.acceptedSockets
    activeConnections := upsert m.activeConnections userId ws
    heartbeatTasks := upsert m.heartbeatTasks userId m.nextTask
    nextTask := m.nextTask + 1 }

/-- Embeds `ConnectionManager.disconnect` (`chat_ws.py:46-59`): cancel the
heartbeat task and remove both map entries (still no socket close). -/
def ConnManager.disconnect (m : ConnManager) (userId : String) : ConnManager :=
  { m with
    cancelledTasks :=
      match m.heartbeatTasks.lookup userId with
      | some t => t :: m.cancelledTasks
      | none => m.cancelledTasks
    heartbeatTasks := m.heartbeatTasks.filter (fun p => p.1 != userId)
    activeConnections := m.activeConnections.filter (fun p => p.1 != userId) }

/-! ## MCP hub (`ai/mcp/server.py`, `ai/mcp/tools_server.py`, `ai/mcp/client.py`)

Tool arguments are JSON scalars keyed by name; `JValue.truthy` is Python
truthiness, which the tool bodies use (`if not city: raise ValueError`). -/

inductive JValue where
  | jnull
  | jbool (b : Bool)
  | jnum (n : Int)
  | jstr (s : String)
deriving Repr, DecidableEq

def JValue.truthy : JValue → Bool
  | .jnull => false
  | .jbool b => b
  | .jnum n => n ≠ 0
  | .jstr s => s ≠ ""

/-- Python `arguments.get(k)` (default `None`). -/
def argsGet (args : List (String × JValue)) (k : String) : JValue :=
  (args.lookup k).getD .jnull

/-- Python `arguments.get(k, d)`. -/
def argsGetD (args : List (String × JValue)) (k : String) (d : JValue) : JValue :=
  (args.lookup k).getD d

/-- Outcome of one `call_tool` on the weather server.  `executedTool` records
whether `self.weather.execute` (the HTTP-calling tool body,
`tools/general/weather.py:33-88`) was reached — the observable for "without
executing the tool". -/
structure ToolCallOutcome where
  isError : Bool
  executedTool : Bool
  text : String
deriving Repr, DecidableEq

/-- The weather tool's declared JSON Schema (`WeatherMCPServer.get_tools`,
`tools_server.py:105-136`): `city` is a required string, `unit` an optional
string.  Schema conformance of an argument object, per the claim's words. -/
def weatherArgsConformSchema (args : List (String × JValue)) : Bool :=
  (match args.lookup "city" with
   | some (.jstr _) => true
   | _ => false)
  && (match args.lookup "unit" with
      | none => true
      | some (.jstr _) => true
      | some _ => false)

/-- Embeds `WeatherMCPServer.call_tool` (`tools_server.py:138-179`).  `execOk`
models whether the HTTP weather lookup succeeds once reached (on failure
`WeatherTool.execute` raises, which the `except` clause turns into an error
result).  Note there is no schema validation: any truthy `city` value — of any
JSON type — reaches `self.weather.execute`. -/
def weather_call_tool (execOk : Bool) (name : String)
    (args : List (String × JValue)) : ToolCallOutcome :=
  if name ≠ "get_weather" then
    { isError := true, executedTool := false, text := "Unknown tool: " ++ name }
  else
    let city := argsGet args "city"
    let _unit := argsGetD args "unit" (.jstr "celsius")
    if !city.truthy then
      -- raise ValueError("Missing 'city' parameter") → caught → isError=true
      { isError := true, executedTool := false
        text := "天气查询错误: Missing city parameter" }
    else if execOk then
      { isError := false, executedTool := true, text := "weather data" }
    else
      { isError := true, executedTool := true, text := "天气查询错误: upstream failure" }

/-- Embeds `MCPServer._handle_tools_call` (`server.py:156-172`): after the
initialization check it dispatches straight to the subclass `call_tool` —
there is no validation of the name or the arguments against the declared
schema before dispatch.  An uninitialized server raises, which
`handle_request` converts to a JSON-RPC error (`.error`). -/
def handle_tools_call (initialized : Bool) (execOk : Bool) (name : String)
    (args : List (String × JValue)) : Except String ToolCallOutcome :=
  if !initialized then .error "Server not initialized"
  else .ok (weather_call_tool execOk name args)

/-! ### MCP client (`ai/mcp/client.py:86-185`) -/

structure ToolDefn where
  name : String
deriving Repr, DecidableEq

/-- A registered server as the client observes it: the reply to `tools/list`
(a JSON-RPC error makes `list_all_tools` skip the server, `client.py:104-106`)
and the reply to `tools/call` (`.error` = JSON-RPC error object, `.ok` = a
result object carrying `is_error`). -/
structure ServerModel where
  listToolsReply : Except String (List ToolDefn)
  callToolReply : String → List (String × JValue) → Except String ToolCallOutcome

structure ClientModel where
  servers : List (String × ServerModel)

inductive CallToolError where
  | valueError (msg : String)
  | runtimeError (msg : String)
deriving Repr

/-- Embeds `MCPClient.list_all_tools` (`client.py:86-113`): servers answering
`tools/list` with an error are logged and skipped. -/
def list_all_tools (c : ClientModel) : List (String × List ToolDefn) :=
  c.servers.filterMap (fun p =>
    match p.2.listToolsReply with
    | .error _ => none
    | .ok ts => some (p.1, ts))

/-- Embeds `MCPClient._find_tool_server` (`client.py:168-185`): first server,
in registration order, that lists a tool of the given name. -/
def find_tool_server (c : ClientModel) (toolName : String) : Option String :=
  (list_all_tools c).findSome? (fun p =>
    if p.2.any (fun t => t.name == toolName) then some p.1 else none)

/-- Python `if not server_name`: `None` and the empty string are falsy. -/
def falsyName : Option String → Bool
  | none => true
  | some s => s == ""

/-- Embeds `MCPClient.call_tool` (`client.py:115-166`). -/
def client_call_tool (c : ClientModel) (toolName : String)
    (args : List (String × JValue)) (serverName : Option String) :
    Except CallToolError ToolCallOutcome :=
  let resolved : Option String :=
    if falsyName serverName then find_tool_server c toolName else serverName
  match resolved with
  | none =>
    .error (.valueError ("Tool " ++ toolName ++ " not found in any server"))
  | some n =>
    match c.servers.lookup n with
    | none => .error (.valueError ("Server " ++ n ++ " not registered"))
    | some srv =>
      match srv.callToolReply toolName args with
      | .error e => .error (.runtimeError ("Tool call failed: " ++ e))
      | .ok r => .ok r

/-! ## Streaming generator (`ChatService.send_message_streaming`, `chat_service.py:712-1367`)

The generator is embedded as a function from its run-determining inputs —
whether the session and the model resolve, the session's `message_count` on
entry, the `skip_user_message` flag, the sequence of agent chunks, and the
point (if any) at which the agent raises — to the list of emitted wire
frames.  Each frame is projected to the fields the claims concern:
`event_id`, `event_type`, and the delta text it carries.  Database writes,
Redis calls and the `event_data` envelope fields (`message_id`,
`conversation_id`, `status`, `is_finish`) emit no frames and are commented
at the spot where the source performs them.  Fresh `uuid4()` draws are
modelled by the counter `freshId`. -/

def EventType.ERROR : Nat := 1999

def EventType.MESSAGE_START : Nat := 2000

def EventType.MESSAGE_CONTENT : Nat := 2001

def EventType.MESSAGE_DONE : Nat := 2002

def EventType.THINKING_START : Nat := 3000

def EventType.THINKING_DELTA : Nat := 3001

def EventType.THINKING_COMPLETE : Nat := 3002

def EventType.TOOL_CALL : Nat := 4000

def EventType.TOOL_RESULT : Nat := 4001

def EventType.LLM_INVOCATION_COMPLETE : Nat := 5000

inductive EvPayload where
  | messageStart
  | contentDelta (text : List Char)
  | thinkingStart
  | thinkingDelta (text : List Char)
  | thinkingComplete
  | toolCall (name : String)
  | toolResult (name : String)
  | llmInvocationComplete
  | messageDone
  | errorData
deriving Repr, DecidableEq

structure WireEvent where
  eventId : Nat
  eventType : Nat
  payload : EvPayload
deriving Repr, DecidableEq

/-- Embeds `ChatService._get_next_event_id` (`chat_service.py:39-60`):
`(new event_id, new current_type)`. -/
def get_next_event_id (eventType : Nat) (currentType : Option Nat)
    (currentId : Nat) : Nat × Nat :=
  match currentType with
  | none => (0, eventType)
  | some ct => if eventType ≠ ct then (0, eventType) else (currentId + 1, eventType)

/-- Generator-local mutable state of `send_message_streaming`
(`chat_service.py:734-737` and `896-906`). -/
structure StreamState where
  eventId : Nat
  currentType : Option Nat
  messageIndex : Nat
  assistantContent : List Char
  thinkingBuffer : List Char
  lastSentContentLen : Nat
  currentThinkingId : Option Nat
  freshId : Nat
  messageCount : Nat
deriving Repr, DecidableEq

/-- One `_get_next_event_id` + `yield self._wrap_ws_message(...)` pair. -/
def emitEvent (st : StreamState) (ty : Nat) (p : EvPayload) :
    StreamState × WireEvent :=
  let r := get_next_event_id ty st.currentType st.eventId
  ({ st with eventId := r.1, currentType := some r.2 }, ⟨r.1, ty, p⟩)

/-- An emission followed by `message_index += 1`, the shape of every yield in
the streaming loop. -/
def emitFrame (st : StreamState) (ty : Nat) (p : EvPayload) :
    StreamState × List WireEvent :=
  let r := emitEvent st ty p
  ({ r.1 with messageIndex := r.1.messageIndex + 1 }, [r.2])

def thinkOpenTag : List Char := "<think>".toList

def thinkCloseTag : List Char := "</think>".toList

/-- The leftmost match of the non-greedy regex `<think>(.*?)</think>`
(`chat_service.py:939`): text before the first `<think>`, the captured
group, and the text after the earliest following `</think>`. -/
def findThinkMatch (ac : List Char) :
    Option (List Char × List Char × List Char) :=
  match findSub thinkOpenTag ac with
  | none => none
  | some s =>
    let afterOpen := ac.drop (s + 7)
    match findSub thinkCloseTag afterOpen with
    | none => none
    | some t => some (ac.take s, afterOpen.take t, afterOpen.drop (t + 8))

/-- Body of one iteration of the think-block loop
(`chat_service.py:939-979`), for a found match `(before, inner, after)`. -/
def thinkBlockIter (st : StreamState) (before inner after : List Char) :
    StreamState × List WireEvent :=
  let thinkingText := pyStrip inner
  -- thinking_id = current_thinking_id if current_thinking_id else str(uuid4())
  let st1 :=
    match st.currentThinkingId with
    | some _ => st
    | none => { st with freshId := st.freshId + 1 }
  -- if thinking_text: timeline.append(...) (no frame); yield THINKING_COMPLETE
  let r1 :=
    if !thinkingText.isEmpty then
      emitFrame st1 EventType.THINKING_COMPLETE .thinkingComplete
    else (st1, [])
  -- remove the matched block; clear the thinking buffer and id
  ({ r1.1 with
      assistantContent := before ++ after
      thinkingBuffer := []
      currentThinkingId := none }, r1.2)

/-- The `while "<think>" in assistant_content and "</think>" in assistant_content`
loop (`chat_service.py:937-981`).  Every iteration removes a complete
`<think>…</think>` block (at least 15 characters), so
`assistant_content.length + 1` units of fuel — what `processContentChunk`
passes — always outlast the loop; the fuel is only a structural-recursion
device, not a semantic bound. -/
def processThinkBlocks : Nat → StreamState → StreamState × List WireEvent
  | 0, st => (st, [])
  | fuel + 1, st =>
    if containsSub thinkOpenTag st.assistantContent
        && containsSub thinkCloseTag st.assistantContent then
      match findThinkMatch st.assistantContent with
      | none => (st, [])
      | some (before, inner, after) =>
        let r1 := thinkBlockIter st before inner after
        let r2 := processThinkBlocks fuel r1.1
        (r2.1, r1.2 ++ r2.2)
    else (st, [])

/-- The `if ... and last_sent_content_len < len(...)` content-sending block.
It appears twice verbatim in the source: once for the text preceding an
unfinished `<think>` (`chat_service.py:990-1014`, `upTo = before_think`) and
once for the whole visible content (`chat_service.py:1067-1091`,
`upTo = assistant_content`). -/
def sendPendingContent (st : StreamState) (upTo : List Char) :
    StreamState × List WireEvent :=
  if !upTo.isEmpty && st.lastSentContentLen < upTo.length then
    let contentToSend := upTo.drop st.lastSentContentLen
    let stB := { st with lastSentContentLen := upTo.length }
    if !contentToSend.isEmpty then
      -- content_id = str(uuid4())
      emitFrame { stB with freshId := stB.freshId + 1 }
        EventType.MESSAGE_CONTENT (.contentDelta contentToSend)
    else (stB, [])
  else (st, [])

/-- The `if not current_thinking_id:` block (`chat_service.py:1016-1038`):
mint a thinking id and yield THINKING_START. -/
def startThinkingIfNew (st : StreamState) : StreamState × List WireEvent :=
  match st.currentThinkingId with
  | some _ => (st, [])
  | none =>
    emitFrame { st with
        currentThinkingId := some st.freshId
        freshId := st.freshId + 1 }
      EventType.THINKING_START .thinkingStart

/-- The thinking-delta block (`chat_service.py:1040-1064`). -/
def sendThinkingDelta (st : StreamState) (currentThinking : List Char) :
    StreamState × List WireEvent :=
  let newThinkingDelta := currentThinking.drop st.thinkingBuffer.length
  let stC := { st with thinkingBuffer := currentThinking }
  if !newThinkingDelta.isEmpty then
    emitFrame stC EventType.THINKING_DELTA (.thinkingDelta newThinkingDelta)
  else (stC, [])

/-- Handling of one `chunk["type"] == "content"` frame
(`chat_service.py:931-1091`). -/
def processContentChunk (st0 : StreamState) (delta : List Char) :
    StreamState × List WireEvent :=
  let stA := { st0 with assistantContent := st0.assistantContent ++ delta }
  let r0 := processThinkBlocks (stA.assistantContent.length + 1) stA
  let st := r0.1
  if containsSub thinkOpenTag st.assistantContent
      && !containsSub thinkCloseTag st.assistantContent then
    -- unfinished thinking: only `<think>` present (`chat_service.py:984-1064`)
    let thinkPos := (findSub thinkOpenTag st.assistantContent).getD 0
    let beforeThink := st.assistantContent.take thinkPos
    let currentThinking := st.assistantContent.drop (thinkPos + 7)
    let r1 := sendPendingContent st beforeThink
    let r2 := startThinkingIfNew r1.1
    let r3 := sendThinkingDelta r2.1 currentThinking
    (r3.1, r0.2 ++ r1.2 ++ r2.2 ++ r3.2)
  else
    -- no unfinished thinking: plain content delta (`chat_service.py:1065-1091`)
    let r1 := sendPendingContent st st.assistantContent
    (r1.1, r0.2 ++ r1.2)

/-- Handling of one `chunk["type"] == "tool_calls"` frame
(`chat_service.py:1093-1160`): one TOOL_CALL frame per entry, in block
order.  The `ToolInvocation` row insert and the timeline append are
database-side and emit nothing. -/
def processToolCalls (st : StreamState) : List String → StreamState × List WireEvent
  | [] => (st, [])
  | name :: rest =>
    -- tool_call_id = str(uuid4())
    let r1 := emitFrame { st with freshId := st.freshId + 1 }
      EventType.TOOL_CALL (.toolCall name)
    let r2 := processToolCalls r1.1 rest
    (r2.1, r1.2 ++ r2.2)

/-- One agent chunk as `send_message_streaming` consumes it
(`agent.run_streaming` yields dicts with a `type` tag). -/
inductive Chunk where
  | content (delta : List Char)
  | toolCalls (names : List String)
  | toolResult (name : String)
  | llmInvocation
  | usage
deriving Repr, DecidableEq

def processChunk (st : StreamState) : Chunk → StreamState × List WireEvent
  | .content delta => processContentChunk st delta
  | .toolCalls names => processToolCalls st names
  | .toolResult name =>
    -- timeline update + ToolInvocation row update (`chat_service.py:1162-1200`)
    -- emit nothing; then one TOOL_RESULT frame (`chat_service.py:1202-1223`)
    emitFrame st EventType.TOOL_RESULT (.toolResult name)
  | .llmInvocation =>
    -- session token accounting (`chat_service.py:1225-1236`) emits nothing;
    -- then one LLM_INVOCATION_COMPLETE frame (`chat_service.py:1238-1263`)
    emitFrame st EventType.LLM_INVOCATION_COMPLETE .llmInvocationComplete
  | .usage =>
    -- `chat_service.py:1265-1270`: records token counters, yields nothing
    (st, [])

def processChunks (st : StreamState) : List Chunk → StreamState × List WireEvent
  | [] => (st, [])
  | c :: rest =>
    let r1 := processChunk st c
    let r2 := processChunks r1.1 rest
    (r2.1, r1.2 ++ r2.2)

structure TurnResult where
  events : List WireEvent
  titleJobScheduled : Bool
deriving Repr, DecidableEq

def initialStreamState (messageCount : Nat) : StreamState :=
  { eventId := 0
    currentType := none
    messageIndex := 0
    assistantContent := []
    thinkingBuffer := []
    lastSentContentLen := 0
    currentThinkingId := none
    freshId := 0
    messageCount := messageCount }

/-- Embeds `ChatService.send_message_streaming` (`chat_service.py:712-1367`).
`failAfter = some k` models the agent raising after `k` chunks were
consumed (any exception inside the `try` of lines 923-1346 lands in the
handler of lines 1348-1365).  The second result component records whether
line 1346 scheduled the fire-and-forget `generate_title` task. -/
def send_message_streaming (sessionExists modelExists : Bool)
    (messageCount : Nat) (skipUserMessage : Bool)
    (chunks : List Chunk) (failAfter : Option Nat) : TurnResult :=
  let st := initialStreamState messageCount
  if !sessionExists then
    -- `chat_service.py:742-762`: error frame issued through _get_next_event_id
    let r := emitEvent st EventType.ERROR .errorData
    { events := [r.2], titleJobScheduled := false }
  else if !modelExists then
    -- `chat_service.py:768-784`: this yield does NOT call _get_next_event_id;
    -- it reuses the current event_id (still 0) verbatim
    { events := [⟨st.eventId, EventType.ERROR, .errorData⟩]
      titleJobScheduled := false }
  else
    -- `create_message` for the user turn (`message_count += 1`,
    -- `chat_service.py:302`) unless skipped, then the pending assistant
    -- placeholder (`message_count += 1`, line 812)
    let st := { st with messageCount :=
      st.messageCount + (if skipUserMessage then 0 else 1) + 1 }
    let rStart := emitEvent st EventType.MESSAGE_START .messageStart
    let st := { rStart.1 with messageIndex := rStart.1.messageIndex + 1 }
    -- the summarization check and history assembly (lines 830-921) emit nothing
    match failAfter with
    | none =>
      let r := processChunks st chunks
      -- finalize (lines 1272-1309): placeholder update and commit, no frames;
      -- then the MESSAGE_DONE frame (lines 1311-1340, no message_index bump)
      let rDone := emitEvent r.1 EventType.MESSAGE_DONE .messageDone
      -- line 1343: `if session.message_count == 2` → schedule generate_title
      { events := rStart.2 :: r.2 ++ [rDone.2]
        titleJobScheduled := rDone.1.messageCount == 2 }
    | some k =>
      let r := processChunks st (chunks.take k)
      -- the except handler (lines 1348-1365) yields an ERROR frame with the
      -- stale event_id — it never calls _get_next_event_id
      { events := rStart.2 :: r.2 ++ [⟨r.1.eventId, EventType.ERROR, .errorData⟩]
        titleJobScheduled := false }

/-! ## Event-id sequencing infrastructure (claim C1)

`eventIdRule p n` is the spec's rule for a consecutive pair of wire events:
the `event_id` resets to 0 on an `event_type` change and increments by 1
otherwise.  `stateMatches st e` says the generator state carries exactly the
`(event_id, event_type)` of the last emitted event; `EmitSeg e r` says a
computation segment `r`, entered with last event `e`, emits a rule-respecting
continuation and leaves the state in sync with its last event. -/

def eventIdRule (p n : WireEvent) : Bool :=
  if n.eventType == p.eventType then n.eventId == p.eventId + 1
  else n.eventId == 0

def EventIdChain (evs : List WireEvent) : Prop :=
  List.Chain' (fun p n => eventIdRule p n = true) evs

/-- Executable version of `EventIdChain`, used to settle concrete runs. -/
def eventIdChainB : List WireEvent → Bool
  | a :: b :: rest => eventIdRule a b && eventIdChainB (b :: rest)
  | _ => true

theorem eventIdChainB_iff (evs : List WireEvent) :
    eventIdChainB evs = true ↔ EventIdChain evs := by
  induction evs with
  | nil => simp [EventIdChain, eventIdChainB]
  | cons a rest ih =>
    cases rest with
    | nil => simp [EventIdChain, eventIdChainB]
    | cons b t =>
      rw [EventIdChain, List.chain'_cons, eventIdChainB, Bool.and_eq_true]
      exact and_congr Iff.rfl ih

instance decidableEventIdChain (evs : List WireEvent) :
    Decidable (EventIdChain evs) :=
  decidable_of_iff _ (eventIdChainB_iff evs)

def stateMatches (st : StreamState) (e : WireEvent) : Prop :=
  st.eventId = e.eventId ∧ st.currentType = some e.eventType

def EmitSeg (e : WireEvent) (r : StreamState × List WireEvent) : Prop :=
  EventIdChain (e :: r.2) ∧ stateMatches r.1 (r.2.getLastD e)

theorem getLast?_cons_eq {α : Type _} (a : α) (l : List α) :
    (a :: l).getLast? = some (l.getLastD a) := by
  induction l generalizing a with
  | nil => rfl
  | cons b t ih => rw [List.getLast?_cons_cons, List.getLastD_cons]; exact ih b

theorem getLastD_append {α : Type _} (l1 l2 : List α) (a : α) :
    (l1 ++ l2).getLastD a = l2.getLastD (l1.getLastD a) := by
  induction l1 generalizing a with
  | nil => rfl
  | cons b t ih =>
    rw [List.cons_append, List.getLastD_cons, List.getLastD_cons]
    exact ih b

theorem emitEvent_stateMatches (st : StreamState) (ty : Nat) (p : EvPayload) :
    stateMatches (emitEvent st ty p).1 (emitEvent st ty p).2 := by
  unfold emitEvent get_next_event_id stateMatches
  cases st.currentType with
  | none => simp
  | some ct => by_cases h : ty = ct <;> simp [h]

theorem emitEvent_rule (st : StreamState) (ty : Nat) (p : EvPayload)
    (e : WireEvent) (h : stateMatches st e) :
    eventIdRule e (emitEvent st ty p).2 = true := by
  obtain ⟨h1, h2⟩ := h
  unfold emitEvent get_next_event_id eventIdRule
  rw [h2]
  by_cases hty : ty = e.eventType <;> simp [hty, h1]

theorem emitSeg_nil (st : StreamState) (e : WireEvent) (h : stateMatches st e) :
    EmitSeg e (st, []) :=
  ⟨List.chain'_singleton e, by simpa using h⟩

theorem emitSeg_emitFrame (st : StreamState) (ty : Nat) (p : EvPayload)
    (e : WireEvent) (h : stateMatches st e) :
    EmitSeg e (emitFrame st ty p) := by
  constructor
  · exact List.chain'_cons.mpr
      ⟨emitEvent_rule st ty p e h, List.chain'_singleton _⟩
  · have := emitEvent_stateMatches st ty p
    simpa [emitFrame, stateMatches] using this

theorem emitSeg_append {e : WireEvent} {r1 r2 : StreamState × List WireEvent}
    (h1 : EmitSeg e r1) (h2 : EmitSeg (r1.2.getLastD e) r2) :
    EmitSeg e (r2.1, r1.2 ++ r2.2) := by
  obtain ⟨c1, m1⟩ := h1
  obtain ⟨c2, m2⟩ := h2
  constructor
  · show List.Chain' _ ((e :: r1.2) ++ r2.2)
    refine List.Chain'.append c1 (List.chain'_cons'.mp c2).2 ?_
    intro x hx y hy
    rw [getLast?_cons_eq] at hx
    simp only [Option.mem_def, Option.some.injEq] at hx
    subst hx
    exact (List.chain'_cons'.mp c2).1 y hy
  · show stateMatches r2.1 ((r1.2 ++ r2.2).getLastD e)
    rw [getLastD_append]
    exact m2

theorem emitSeg_emitEvent (st : StreamState) (ty : Nat) (p : EvPayload)
    (e : WireEvent) (h : stateMatches st e) :
    EmitSeg e ((emitEvent st ty p).1, [(emitEvent st ty p).2]) := by
  constructor
  · exact List.chain'_cons.mpr
      ⟨emitEvent_rule st ty p e h, List.chain'_singleton _⟩
  · simpa using emitEvent_stateMatches st ty p

theorem thinkBlockIter_seg (st : StreamState) (before inner after : List Char)
    (e : WireEvent) (h : stateMatches st e) :
    EmitSeg e (thinkBlockIter st before inner after) := by
  unfold thinkBlockIter
  have h1 : stateMatches
      (match st.currentThinkingId with
       | some _ => st
       | none => { st with freshId := st.freshId + 1 }) e := by
    cases st.currentThinkingId <;> exact h
  by_cases hc : (!(pyStrip inner).isEmpty) = true
  · simp only [hc, if_true]
    obtain ⟨c1, m1⟩ := emitSeg_emitFrame _ EventType.THINKING_COMPLETE
      .thinkingComplete e h1
    exact ⟨c1, m1⟩
  · simp only [hc, if_false]
    exact emitSeg_nil _ e h1

theorem processThinkBlocks_seg (fuel : Nat) :
    ∀ (st : StreamState) (e : WireEvent), stateMatches st e →
      EmitSeg e (processThinkBlocks fuel st) := by
  induction fuel with
  | zero => intro st e h; exact emitSeg_nil st e h
  | succ fuel ih =>
    intro st e h
    unfold processThinkBlocks
    split
    · split
      · exact emitSeg_nil st e h
      · rename_i before inner after _
        have h1 := thinkBlockIter_seg st before inner after e h
        exact emitSeg_append h1 (ih _ _ h1.2)
    · exact emitSeg_nil st e h

theorem sendPendingContent_seg (st : StreamState) (upTo : List Char)
    (e : WireEvent) (h : stateMatches st e) :
    EmitSeg e (sendPendingContent st upTo) := by
  unfold sendPendingContent
  split
  · lift_lets
    extract_lets contentToSend stB
    split
    · exact emitSeg_emitFrame _ _ _ e h
    · exact emitSeg_nil _ e h
  · exact emitSeg_nil st e h

theorem startThinkingIfNew_seg (st : StreamState) (e : WireEvent)
    (h : stateMatches st e) : EmitSeg e (startThinkingIfNew st) := by
  unfold startThinkingIfNew
  split
  · exact emitSeg_nil st e h
  · exact emitSeg_emitFrame _ _ _ e h

theorem sendThinkingDelta_seg (st : StreamState) (currentThinking : List Char)
    (e : WireEvent) (h : stateMatches st e) :
    EmitSeg e (sendThinkingDelta st currentThinking) := by
  unfold sendThinkingDelta
  lift_lets
  extract_lets newThinkingDelta stC
  split
  · exact emitSeg_emitFrame _ _ _ e h
  · exact emitSeg_nil _ e h

theorem processContentChunk_seg (st0 : StreamState) (delta : List Char)
    (e : WireEvent) (h : stateMatches st0 e) :
    EmitSeg e (processContentChunk st0 delta) := by
  unfold processContentChunk
  lift_lets
  extract_lets stA r0 st
  have h0 : EmitSeg e r0 := processThinkBlocks_seg _ stA e h
  split
  · extract_lets thinkPos beforeThink currentThinking r1 r2 r3
    have h1 : EmitSeg (r0.2.getLastD e) r1 :=
      sendPendingContent_seg _ _ _ h0.2
    have h2 : EmitSeg (r1.2.getLastD (r0.2.getLastD e)) r2 :=
      startThinkingIfNew_seg _ _ h1.2
    have h3 : EmitSeg (r2.2.getLastD (r1.2.getLastD (r0.2.getLastD e))) r3 :=
      sendThinkingDelta_seg _ _ _ h2.2
    have h01 := emitSeg_append h0 h1
    rw [← getLastD_append] at h2
    have h012 := emitSeg_append h01 h2
    rw [← getLastD_append, ← getLastD_append, ← List.append_assoc] at h3
    exact emitSeg_append h012 h3
  · exact emitSeg_append h0 (sendPendingContent_seg _ _ _ h0.2)

theorem processToolCalls_seg (names : List String) :
    ∀ (st : StreamState) (e : WireEvent), stateMatches st e →
      EmitSeg e (processToolCalls st names) := by
  induction names with
  | nil => intro st e h; exact emitSeg_nil st e h
  | cons name rest ih =>
    intro st e h
    have h1 : EmitSeg e (emitFrame { st with freshId := st.freshId + 1 }
        EventType.TOOL_CALL (.toolCall name)) :=
      emitSeg_emitFrame _ _ _ e h
    exact emitSeg_append h1 (ih _ _ h1.2)

theorem processChunk_seg (st : StreamState) (c : Chunk) (e : WireEvent)
    (h : stateMatches st e) : EmitSeg e (processChunk st c) := by
  cases c with
  | content delta => exact processContentChunk_seg st delta e h
  | toolCalls names => exact processToolCalls_seg names st e h
  | toolResult name => exact emitSeg_emitFrame _ _ _ e h
  | llmInvocation => exact emitSeg_emitFrame _ _ _ e h
  | usage => exact emitSeg_nil st e h

theorem processChunks_seg (chunks : List Chunk) :
    ∀ (st : StreamState) (e : WireEvent), stateMatches st e →
      EmitSeg e (processChunks st chunks) := by
  induction chunks with
  | nil => intro st e h; exact emitSeg_nil st e h
  | cons c rest ih =>
    intro st e h
    have h1 := processChunk_seg st c e h
    exact emitSeg_append h1 (ih _ _ h1.2)

theorem emitFrame_messageCount (st : StreamState) (ty : Nat) (p : EvPayload) :
    (emitFrame st ty p).1.messageCount = st.messageCount := rfl

theorem thinkBlockIter_messageCount (st : StreamState) (b i a : List Char) :
    (thinkBlockIter st b i a).1.messageCount = st.messageCount := by
  unfold thinkBlockIter emitFrame emitEvent
  cases h : st.currentThinkingId <;>
    by_cases hc : (!(pyStrip i).isEmpty) = true <;> simp [h, hc]

theorem processThinkBlocks_messageCount (fuel : Nat) :
    ∀ st : StreamState,
      (processThinkBlocks fuel st).1.messageCount = st.messageCount := by
  induction fuel with
  | zero => intro st; rfl
  | succ fuel ih =>
    intro st
    unfold processThinkBlocks
    split
    · split
      · rfl
      · rename_i b i a _
        show (processThinkBlocks fuel (thinkBlockIter st b i a).1).1.messageCount = _
        rw [ih, thinkBlockIter_messageCount]
    · rfl

theorem sendPendingContent_messageCount (st : StreamState) (u : List Char) :
    (sendPendingContent st u).1.messageCount = st.messageCount := by
  simp only [sendPendingContent]
  split
  · split <;> rfl
  · rfl

theorem startThinkingIfNew_messageCount (st : StreamState) :
    (startThinkingIfNew st).1.messageCount = st.messageCount := by
  unfold startThinkingIfNew
  split <;> rfl

theorem sendThinkingDelta_messageCount (st : StreamState) (ct : List Char) :
    (sendThinkingDelta st ct).1.messageCount = st.messageCount := by
  simp only [sendThinkingDelta]
  split <;> rfl

theorem processContentChunk_messageCount (st0 : StreamState) (d : List Char) :
    (processContentChunk st0 d).1.messageCount = st0.messageCount := by
  simp only [processContentChunk]
  split
  · rw [sendThinkingDelta_messageCount, startThinkingIfNew_messageCount,
        sendPendingContent_messageCount, processThinkBlocks_messageCount]
  · rw [sendPendingContent_messageCount, processThinkBlocks_messageCount]

theorem processToolCalls_messageCount (names : List String) :
    ∀ st : StreamState,
      (processToolCalls st names).1.messageCount = st.messageCount := by
  induction names with
  | nil => intro st; rfl
  | cons name rest ih =>
    intro st
    show (processToolCalls (emitFrame _ _ _).1 rest).1.messageCount = _
    rw [ih, emitFrame_messageCount]

theorem processChunk_messageCount (st : StreamState) (c : Chunk) :
    (processChunk st c).1.messageCount = st.messageCount := by
  cases c with
  | content delta => exact processContentChunk_messageCount st delta
  | toolCalls names => exact processToolCalls_messageCount names st
  | toolResult name => rfl
  | llmInvocation => rfl
  | usage => rfl

theorem processChunks_messageCount (chunks : List Chunk) :
    ∀ st : StreamState,
      (processChunks st chunks).1.messageCount = st.messageCount := by
  induction chunks with
  | nil => intro st; rfl
  | cons c rest ih =>
    intro st
    show (processChunks (processChunk st c).1 rest).1.messageCount = _
    rw [ih, processChunk_messageCount]

theorem emitEvent_eventId_of_none (st : StreamState) (ty : Nat) (p : EvPayload)
    (h : st.currentType = none) : (emitEvent st ty p).2.eventId = 0 := by
  simp [emitEvent, get_next_event_id, h]

/-- The session state right after the `message_count` increments of a normal
turn (`chat_service.py:789-812`). -/
def turnStartState (mc : Nat) (skip : Bool) : StreamState :=
  { initialStreamState mc with
    messageCount := mc + (if skip then 0 else 1) + 1 }

/-- The generator state right after the MESSAGE_START frame
(`chat_service.py:815-828`). -/
def turnStreamState (mc : Nat) (skip : Bool) : StreamState :=
  let r := emitEvent (turnStartState mc skip) EventType.MESSAGE_START .messageStart
  { r.1 with messageIndex := r.1.messageIndex + 1 }

theorem sms_none_events_eq (mc : Nat) (skip : Bool) (chunks : List Chunk) :
    (send_message_streaming true true mc skip chunks none).events =
      (emitEvent (turnStartState mc skip)
          EventType.MESSAGE_START .messageStart).2 ::
        (processChunks (turnStreamState mc skip) chunks).2 ++
        [(emitEvent (processChunks (turnStreamState mc skip) chunks).1
            EventType.MESSAGE_DONE .messageDone).2] := rfl

theorem sms_none_title_eq (mc : Nat) (skip : Bool) (chunks : List Chunk) :
    (send_message_streaming true true mc skip chunks none).titleJobScheduled =
      ((emitEvent (processChunks (turnStreamState mc skip) chunks).1
          EventType.MESSAGE_DONE .messageDone).1.messageCount == 2) := rfl

/-- Projection of the wire stream onto the claim's normalizer vocabulary:
`thinking_begin` ↔ THINKING_START (3000), `thinking_delta` ↔ THINKING_DELTA
(3001), `thinking_end` ↔ THINKING_COMPLETE (3002), `content_delta` ↔
MESSAGE_CONTENT (2001); all other frames are dropped. -/
def deltaTrace (evs : List WireEvent) : List EvPayload :=
  evs.filterMap (fun e =>
    match e.payload with
    | .contentDelta t => some (.contentDelta t)
    | .thinkingStart => some .thinkingStart
    | .thinkingDelta t => some (.thinkingDelta t)
    | .thinkingComplete => some .thinkingComplete
    | _ => none)

/-! ## Claim theorems -/

/-- C1, counterexample: the claim fails as stated.  In the run where the
agent yields content `"a"` and `"b"` and then raises, the generator emits
MESSAGE_START(id 0), MESSAGE_CONTENT(id 0), MESSAGE_CONTENT(id 1) and then —
through the `except` handler of `chat_service.py:1348-1365`, which bypasses
`_get_next_event_id` — ERROR with the stale `event_id` 1, although the
event type changed; the spec's reset-to-0 rule is violated at that pair. -/
theorem c1_event_id_counterexample :
    ¬ EventIdChain (send_message_streaming true true 0 false
      [Chunk.content "a".toList, Chunk.content "b".toList] (some 2)).events := by
  decide

/-- C1, amended: in every run of the streaming generator that terminates
without an exception, consecutive wire events obey the rule — `event_id`
resets to 0 exactly when `event_type` differs from the previous event and
increments by 1 otherwise — and in every run (exception or not) the first
event of the turn carries `event_id` 0.  (The claim as frozen also asserts
the reset rule for the error frame emitted by the exception handler, which
reuses the previous `event_id` verbatim; see the counterexample.) -/
theorem c1_event_id_sequencing (sessionExists modelExists : Bool)
    (messageCount : Nat) (skipUserMessage : Bool) (chunks : List Chunk)
    (failAfter : Option Nat) :
    EventIdChain (send_message_streaming sessionExists modelExists messageCount
        skipUserMessage chunks none).events ∧
    ((send_message_streaming sessionExists modelExists messageCount
        skipUserMessage chunks failAfter).events.map WireEvent.eventId).head?
      = some 0 := by
  cases sessionExists with
  | false => exact ⟨List.chain'_singleton _, rfl⟩
  | true =>
    cases modelExists with
    | false => exact ⟨List.chain'_singleton _, rfl⟩
    | true =>
      refine ⟨?_, ?_⟩
      · rw [show (send_message_streaming true true messageCount skipUserMessage
            chunks none).events = _ from sms_none_events_eq _ _ _]
        have hstart : stateMatches (turnStreamState messageCount skipUserMessage)
            (emitEvent (turnStartState messageCount skipUserMessage)
              EventType.MESSAGE_START .messageStart).2 :=
          emitEvent_stateMatches _ _ _
        have hseg := processChunks_seg chunks _ _ hstart
        have hdone := emitSeg_emitEvent _ EventType.MESSAGE_DONE .messageDone _ hseg.2
        exact (emitSeg_append hseg hdone).1
      · cases failAfter with
        | none => rfl
        | some k => rfl

/-- C2, counterexample: when frame k carries `"<think>abc"` and frame k+1
carries `"def</think>xyz"`, the generator does NOT emit the event sequence
the claim demands (`thinking_begin; thinking_delta("abc");
thinking_delta("def"); thinking_end; content_delta("xyz")`): the
`thinking_delta("def")` frame is missing, because the while-loop of
`chat_service.py:937-981` consumes the whole completed `<think>…</think>`
block and yields only a THINKING_COMPLETE status frame, never a delta for
the residue that arrived together with the closing tag. -/
theorem c2_straddled_think_counterexample :
    deltaTrace (send_message_streaming true true 0 false
      [Chunk.content "<think>abc".toList, Chunk.content "def</think>xyz".toList]
      none).events ≠
    [EvPayload.thinkingStart, EvPayload.thinkingDelta "abc".toList,
     EvPayload.thinkingDelta "def".toList, EvPayload.thinkingComplete,
     EvPayload.contentDelta "xyz".toList] := by
  decide

/-- C2, amended: for the straddled block (`"<think>abc"` in frame k,
`"def</think>xyz"` in frame k+1) the emitted normalized sequence is
`thinking_begin; thinking_delta("abc"); thinking_end; content_delta("xyz")`:
the `"def"` residue carried in the same frame as the closing tag is folded
into the stored thinking text but never emitted as a `thinking_delta`. -/
theorem c2_straddled_think_amended :
    deltaTrace (send_message_streaming true true 0 false
      [Chunk.content "<think>abc".toList, Chunk.content "def</think>xyz".toList]
      none).events =
    [EvPayload.thinkingStart, EvPayload.thinkingDelta "abc".toList,
     EvPayload.thinkingComplete, EvPayload.contentDelta "xyz".toList] := by
  decide

/-- The claim's "most recent non-deleted assistant message of the session":
a non-deleted assistant row of the session that is strictly later (by
`created_at`) than every other such row. -/
def IsLatestAssistant (db : List Msg) (sid : Nat) (m : Msg) : Prop :=
  m ∈ db ∧ m.sessionId = sid ∧ m.isDeleted = false ∧ m.role = "assistant" ∧
  ∀ m' ∈ db, m'.sessionId = sid → m'.isDeleted = false →
    m'.role = "assistant" → m' ≠ m → m'.createdAt < m.createdAt

theorem latestByCreatedAt_mem : ∀ (l : List Msg) (x : Msg),
    latestByCreatedAt l = some x → x ∈ l
  | [], x, h => by simp [latestByCreatedAt] at h
  | p :: rest, x, h => by
    rw [latestByCreatedAt] at h
    cases hr : latestByCreatedAt rest with
    | none =>
      rw [hr] at h
      dsimp only at h
      injection h with h
      subst h
      exact List.mem_cons_self _ _
    | some mr =>
      rw [hr] at h
      dsimp only at h
      by_cases hgt : mr.createdAt > p.createdAt
      · rw [if_pos hgt] at h
        injection h with h
        subst h
        exact List.mem_cons_of_mem _ (latestByCreatedAt_mem rest _ hr)
      · rw [if_neg hgt] at h
        injection h with h
        subst h
        exact List.mem_cons_self _ _

theorem latestByCreatedAt_eq_some : ∀ (l : List Msg) (m : Msg), m ∈ l →
    (∀ x ∈ l, x ≠ m → x.createdAt < m.createdAt) →
    latestByCreatedAt l = some m
  | [], m, hm, _ => absurd hm (List.not_mem_nil m)
  | p :: rest, m, hm, hmax => by
    rw [latestByCreatedAt]
    cases hr : latestByCreatedAt rest with
    | none =>
      cases rest with
      | nil =>
        have hpm : m = p := by simpa using hm
        subst hpm
        rfl
      | cons q t =>
        rw [latestByCreatedAt] at hr
        cases h2 : latestByCreatedAt t with
        | none => rw [h2] at hr; exact absurd hr (by dsimp only; simp)
        | some mt =>
          rw [h2] at hr
          dsimp only at hr
          by_cases hgt : mt.createdAt > q.createdAt
          · rw [if_pos hgt] at hr; exact absurd hr (by simp)
          · rw [if_neg hgt] at hr; exact absurd hr (by simp)
    | some mr =>
      dsimp only
      have hmr_mem : mr ∈ rest := latestByCreatedAt_mem rest mr hr
      rcases List.mem_cons.mp hm with hmp | hmrest
      · -- m is the head
        subst hmp
        by_cases hmr_eq : mr = m
        · subst hmr_eq
          rw [if_neg (lt_irrefl _)]
        · have hlt := hmax mr (List.mem_cons_of_mem _ hmr_mem) hmr_eq
          rw [if_neg (by omega)]
      · -- the tail's maximum is m itself
        have hmains : latestByCreatedAt rest = some m :=
          latestByCreatedAt_eq_some rest m hmrest
            (fun x hx hne => hmax x (List.mem_cons_of_mem _ hx) hne)
        rw [hmains] at hr
        injection hr with hr
        subst hr
        by_cases hpe : p = m
        · subst hpe
          rw [if_neg (lt_irrefl _)]
        · have hp := hmax p (List.mem_cons_self p rest) hpe
          rw [if_pos hp]

/-- C3: `calculate_current_context_tokens` returns the `total_tokens` of the
session's most recent non-deleted assistant message (0 when that column is
NULL), and 0 when the session has no non-deleted assistant message.
Confirms the claim; the strict `created_at` ordering hypothesis matches the
data-model invariant that `created_at` strictly orders a session's
messages. -/
theorem c3_recompute_context_tokens (db : List Msg) (sid : Nat) :
    (∀ m, IsLatestAssistant db sid m →
      calculate_current_context_tokens db sid = m.totalTokens.getD 0) ∧
    ((∀ m ∈ db, ¬(m.sessionId = sid ∧ m.isDeleted = false ∧
        m.role = "assistant")) →
      calculate_current_context_tokens db sid = 0) := by
  constructor
  · rintro m ⟨hmem, hsid, hdel, hrole, hmax⟩
    unfold calculate_current_context_tokens
    dsimp only
    have hmem' : m ∈ db.filter
        (fun x => x.sessionId == sid && !x.isDeleted && x.role == "assistant") := by
      rw [List.mem_filter]
      refine ⟨hmem, ?_⟩
      simp [hsid, hdel, hrole]
    have hlatest := latestByCreatedAt_eq_some _ m hmem' ?_
    · rw [hlatest]
      dsimp only
      cases m.totalTokens <;> rfl
    · intro x hx hne
      rw [List.mem_filter] at hx
      obtain ⟨hxmem, hxp⟩ := hx
      simp only [Bool.and_eq_true, beq_iff_eq, Bool.not_eq_true'] at hxp
      exact hmax x hxmem hxp.1.1 hxp.1.2 hxp.2 hne
  · intro hnone
    unfold calculate_current_context_tokens
    dsimp only
    have hfil : db.filter
        (fun x => x.sessionId == sid && !x.isDeleted && x.role == "assistant") = [] := by
      rw [List.filter_eq_nil_iff]
      intro x hx
      have := hnone x hx
      simp only [Bool.and_eq_true, beq_iff_eq, Bool.not_eq_true']
      tauto
    rw [hfil]
    rfl

/-- C3 witness: a concrete session whose latest non-deleted assistant
message records 42 total tokens. -/
theorem c3_recompute_context_tokens_witness :
    calculate_current_context_tokens
      [⟨1, 7, 1, "user", false, false, false, none⟩,
       ⟨2, 7, 2, "assistant", false, false, false, some 42⟩,
       ⟨3, 7, 3, "assistant", true, false, false, some 99⟩] 7 = 42 := by
  have := (c3_recompute_context_tokens
    [⟨1, 7, 1, "user", false, false, false, none⟩,
     ⟨2, 7, 2, "assistant", false, false, false, some 42⟩,
     ⟨3, 7, 3, "assistant", true, false, false, some 99⟩] 7).1
    ⟨2, 7, 2, "assistant", false, false, false, some 42⟩
    (by
      refine ⟨by simp, rfl, rfl, rfl, ?_⟩
      intro m' hm' hs hd hr hne
      simp only [List.mem_cons, List.not_mem_nil, or_false] at hm'
      rcases hm' with rfl | rfl | rfl
      · exact absurd hr (by simp)
      · exact absurd rfl hne
      · exact absurd hd (by simp))
  simpa using this

/-- C4, counterexample: the threshold the code compares against is
`int(max_context_length * 0.9)` — the truncated product — not the exact
product.  With `max_context_length = 32768` and `current_context_tokens =
29491` the code triggers summarization (29491 ≥ ⌊29491.2⌋ = 29491) although
the claim's inequality `29491 ≥ 0.9 × 32768` is false. -/
theorem c4_summarize_threshold_counterexample :
    should_generate_summary 29491 32768 = true ∧
    ¬ ((29491 : ℚ) ≥ (9 / 10 : ℚ) * 32768) := by
  constructor
  · decide
  · norm_num

/-- C4, amended: the code compares `current_context_tokens` against
`int(model_max_context * 0.9)` computed in binary64 arithmetic, where
`model_max_context` is `max_context_length` with a fallback to 32768 when it
is 0/NULL (the `or 32768` at `chat_service.py:831`).  Over the whole range
of the 32-bit `max_context_length` column (`1 ≤ max < 2^31`) this float
threshold equals `⌊9 · max / 10⌋` — the truncated product, not the exact
real product: for the default 32768 it is 29491, strictly below the exact
`0.9 × 32768 = 29491.2`. -/
theorem c4_summarize_threshold_amended :
    (∀ currentContextTokens maxContextLength : Nat,
        1 ≤ maxContextLength → maxContextLength < 2 ^ 31 →
        (should_generate_summary currentContextTokens maxContextLength = true ↔
          9 * maxContextLength / 10 ≤ currentContextTokens)) ∧
    (∀ currentContextTokens : Nat,
        should_generate_summary currentContextTokens 0 =
          should_generate_summary currentContextTokens 32768) ∧
    summarizeThreshold 32768 = 29491 ∧
    ((29491 : ℚ) < (9 / 10 : ℚ) * 32768) := by
  refine ⟨?_, ?_, by decide, by norm_num⟩
  · intro currentContextTokens maxContextLength h1 h2
    have hm : model_max_context maxContextLength = maxContextLength := by
      unfold model_max_context
      rw [if_neg (by omega)]
    unfold should_generate_summary summarizeThreshold
    rw [hm, int_mul_0_9_eq_floor maxContextLength h1 h2]
    simp [ge_iff_le]
  · intro currentContextTokens
    rfl

/-- C5, counterexample: a `tools/call` whose arguments do not conform to the
declared schema is not always rejected before dispatch.  The hub
(`MCPServer._handle_tools_call`) performs no schema validation at all, and
for the mistyped argument object `{city: 123}` (the schema declares `city`
as a required string) the weather tool body is executed — `executedTool =
true` and the call even returns `is_error = false` — contradicting "returns
is_error=true … without executing the tool". -/
theorem c5_schema_validation_counterexample :
    weatherArgsConformSchema [("city", JValue.jnum 123)] = false ∧
    handle_tools_call true true "get_weather" [("city", JValue.jnum 123)] =
      .ok { isError := false, executedTool := true, text := "weather data" } := by
  constructor
  · rfl
  · rfl

/-- C5, amended: the hub dispatches every initialized `tools/call` straight
to the tool body with no schema validation; the tool body itself rejects a
wrong tool name, or a missing/falsy required `city` argument, with
`is_error=true` and without invoking the underlying weather lookup, but any
truthy `city` value — whatever its JSON type — reaches the tool's
execution. -/
theorem c5_tool_call_validation (execOk : Bool) (name : String)
    (args : List (String × JValue)) :
    (name ≠ "get_weather" →
      handle_tools_call true execOk name args =
        .ok { isError := true, executedTool := false,
              text := "Unknown tool: " ++ name }) ∧
    ((argsGet args "city").truthy = false →
      handle_tools_call true execOk "get_weather" args =
        .ok { isError := true, executedTool := false,
              text := "天气查询错误: Missing city parameter" }) ∧
    ((argsGet args "city").truthy = true →
      ∃ r, handle_tools_call true execOk "get_weather" args = .ok r ∧
        r.executedTool = true) := by
  refine ⟨?_, ?_, ?_⟩
  · intro hname
    simp [handle_tools_call, weather_call_tool, hname]
  · intro hcity
    simp [handle_tools_call, weather_call_tool, hcity]
  · intro hcity
    cases execOk with
    | true =>
      refine ⟨{ isError := false, executedTool := true,
                text := "weather data" }, ?_, rfl⟩
      simp [handle_tools_call, weather_call_tool, hcity]
    | false =>
      refine ⟨{ isError := true, executedTool := true,
                text := "天气查询错误: upstream failure" }, ?_, rfl⟩
      simp [handle_tools_call, weather_call_tool, hcity]

/-- C5 witness: concrete instances of all three validation behaviours. -/
theorem c5_tool_call_validation_witness :
    (handle_tools_call true true "no_such_tool" [] =
      .ok { isError := true, executedTool := false,
            text := "Unknown tool: " ++ "no_such_tool" }) ∧
    (handle_tools_call true true "get_weather" [] =
      .ok { isError := true, executedTool := false,
            text := "天气查询错误: Missing city parameter" }) ∧
    (∃ r, handle_tools_call true true "get_weather"
        [("city", JValue.jstr "Beijing")] = .ok r ∧ r.executedTool = true) :=
  ⟨(c5_tool_call_validation true "no_such_tool" []).1 (by decide),
   (c5_tool_call_validation true "get_weather" []).2.1 rfl,
   (c5_tool_call_validation true "get_weather"
     [("city", JValue.jstr "Beijing")]).2.2 rfl⟩

set_option maxRecDepth 40000 in
/-- C7: under the fixed-window limiter with limit 60 per 60 s, the 60th
request of a user inside one window succeeds with `X-RateLimit-Remaining: 0`
while the 61st is rejected with HTTP 429 and `Retry-After: 60`; the Lua
script sets the key's expiry exactly on the first increment of a window and
leaves it untouched afterwards, and (being one `EVAL`) the embedding makes
the increment and the conditional expiry a single atomic state transition. -/
theorem c7_rate_limit_boundary :
    (nthWindowResponse 60 60 60).statusCode = 200 ∧
    (nthWindowResponse 60 60 60).rateLimitRemaining = some "0" ∧
    (nthWindowResponse 60 60 61).statusCode = 429 ∧
    (nthWindowResponse 60 60 61).retryAfter = some "60" ∧
    (check_rate_limit { count := 0, ttl := none } 60 60).1.ttl = some 60 ∧
    ∀ c t, (check_rate_limit { count := c + 1, ttl := t } 60 60).1.ttl = t := by
  refine ⟨by decide, by decide, by decide, by decide, rfl, ?_⟩
  intro c t
  unfold check_rate_limit
  dsimp only
  split <;> (dsimp only; rw [if_neg (by omega)])

/-- The per-row effect of `edit_message` as the claim describes it, for an
edited message `original` and the id of the session's summary message (if
one exists): a row is soft-deleted when it already was, lies strictly after
the edited message (same session), is the edited message itself, or is the
summary message of an `is_summarized` edit; `is_summarized` is cleared on
the session's summarized rows at or before the edited message when the
edited message was summarized.  All other fields are untouched. -/
def editMessageSpecEffect (original : Msg) (summaryId : Option Nat)
    (x : Msg) : Msg :=
  { x with
    isSummarized := x.isSummarized &&
      !(original.isSummarized && x.sessionId == original.sessionId &&
        decide (x.createdAt ≤ original.createdAt))
    isDeleted := x.isDeleted ||
      (x.sessionId == original.sessionId &&
        decide (x.createdAt > original.createdAt)) ||
      x.mid == original.mid ||
      (original.isSummarized &&
        (match summaryId with | some i => x.mid == i | none => false)) }

/-- The id of "the session's summary message": the first stored non-deleted
`is_summary` row of the session (`chat_service.py:419-425`). -/
def sessionSummaryId (db : List Msg) (sid : Nat) : Option Nat :=
  ((db.filter (fun x => x.sessionId == sid && x.isSummary
      && !x.isDeleted)).head?).map Msg.mid

set_option maxHeartbeats 1000000 in
theorem editSteps_pointwise_true_some (m s : Msg)
    (hms : m.isSummarized = true) (x : Msg) :
    (fun y => if y.sessionId == m.sessionId && decide (y.createdAt > m.createdAt)
        && !y.isDeleted then { y with isDeleted := true } else y)
      ((fun y => if y.mid == m.mid then { y with isDeleted := true } else y)
        ((fun y => if y.mid == s.mid then { y with isDeleted := true } else y)
          ((fun y => if y.sessionId == m.sessionId && y.isSummarized &&
              decide (y.createdAt ≤ m.createdAt) then
              { y with isSummarized := false } else y) x)))
    = editMessageSpecEffect m (some s.mid) x := by
  cases x with
  | mk mid sid createdAt role isDeleted isSummarized isSummary totalTokens =>
    simp only [editMessageSpecEffect, hms]
    by_cases hB1 : (sid == m.sessionId) = true <;>
      by_cases hB3 : (decide (createdAt ≤ m.createdAt)) = true <;>
        by_cases hB4 : (mid == s.mid) = true <;>
          by_cases hB5 : (mid == m.mid) = true <;>
            by_cases hB6 : (decide (createdAt > m.createdAt)) = true <;>
              cases isSummarized <;> cases isDeleted <;>
                simp [hB1, hB3, hB4, hB5, hB6]

set_option maxHeartbeats 1000000 in
theorem editSteps_pointwise_true_none (m : Msg)
    (hms : m.isSummarized = true) (x : Msg) :
    (fun y => if y.sessionId == m.sessionId && decide (y.createdAt > m.createdAt)
        && !y.isDeleted then { y with isDeleted := true } else y)
      ((fun y => if y.mid == m.mid then { y with isDeleted := true } else y)
        ((fun y => if y.sessionId == m.sessionId && y.isSummarized &&
            decide (y.createdAt ≤ m.createdAt) then
            { y with isSummarized := false } else y) x))
    = editMessageSpecEffect m none x := by
  cases x with
  | mk mid sid createdAt role isDeleted isSummarized isSummary totalTokens =>
    simp only [editMessageSpecEffect, hms]
    by_cases hB1 : (sid == m.sessionId) = true <;>
      by_cases hB3 : (decide (createdAt ≤ m.createdAt)) = true <;>
        by_cases hB5 : (mid == m.mid) = true <;>
          by_cases hB6 : (decide (createdAt > m.createdAt)) = true <;>
            cases isSummarized <;> cases isDeleted <;>
              simp [hB1, hB3, hB5, hB6]

theorem editSteps_pointwise_false (m : Msg) (sId : Option Nat)
    (hms : m.isSummarized = false) (x : Msg) :
    (fun y => if y.sessionId == m.sessionId && decide (y.createdAt > m.createdAt)
        && !y.isDeleted then { y with isDeleted := true } else y)
      ((fun y => if y.mid == m.mid then { y with isDeleted := true } else y) x)
    = editMessageSpecEffect m sId x := by
  cases x with
  | mk mid sid createdAt role isDeleted isSummarized isSummary totalTokens =>
    simp only [editMessageSpecEffect, hms]
    by_cases hB1 : (sid == m.sessionId) = true <;>
      by_cases hB5 : (mid == m.mid) = true <;>
        by_cases hB6 : (decide (createdAt > m.createdAt)) = true <;>
          cases isDeleted <;>
            simp [hB1, hB5, hB6]

theorem editSteps_list_true_some (db : List Msg) (m s : Msg)
    (hms : m.isSummarized = true) :
    editDeleteLaterStep m (editDeleteOriginalStep m
      (editDeleteSummaryStep s (editRestoreStep m db)))
    = db.map (editMessageSpecEffect m (some s.mid)) := by
  unfold editDeleteLaterStep editDeleteOriginalStep editDeleteSummaryStep
    editRestoreStep
  rw [List.map_map, List.map_map, List.map_map]
  exact congrArg (fun f => List.map f db)
    (funext fun x => editSteps_pointwise_true_some m s hms x)

theorem editSteps_list_true_none (db : List Msg) (m : Msg)
    (hms : m.isSummarized = true) :
    editDeleteLaterStep m (editDeleteOriginalStep m (editRestoreStep m db))
    = db.map (editMessageSpecEffect m none) := by
  unfold editDeleteLaterStep editDeleteOriginalStep editRestoreStep
  rw [List.map_map, List.map_map]
  exact congrArg (fun f => List.map f db)
    (funext fun x => editSteps_pointwise_true_none m hms x)

theorem editSteps_list_false (db : List Msg) (m : Msg) (sId : Option Nat)
    (hms : m.isSummarized = false) :
    editDeleteLaterStep m (editDeleteOriginalStep m db)
    = db.map (editMessageSpecEffect m sId) := by
  unfold editDeleteLaterStep editDeleteOriginalStep
  rw [List.map_map]
  exact congrArg (fun f => List.map f db)
    (funext fun x => editSteps_pointwise_false m sId hms x)

/-- C6: for an existing message `m` of a session owned by the caller,
`edit_message` succeeds, creates no new message (the row count is
unchanged) and rewrites the table exactly as the claim describes (see
`editMessageSpecEffect`): it soft-deletes `m` and every non-deleted message
of the session with `created_at` strictly greater than `m`'s, and — when
`m` was marked `is_summarized` — clears `is_summarized` on `m` and on every
summarized message with `created_at ≤ m`'s and soft-deletes the session's
summary message. -/
theorem c6_edit_message (db : List Msg) (ownedByUser : Nat → Bool)
    (messageId : Nat) (m : Msg)
    (hfind : db.find? (fun x => x.mid == messageId) = some m)
    (howned : ownedByUser m.sessionId = true) :
    ∃ db', edit_message db ownedByUser messageId =
        some (db',
          (db'.filter (fun x => x.sessionId == m.sessionId && !x.isDeleted)).length,
          calculate_current_context_tokens db' m.sessionId) ∧
      db' = db.map (editMessageSpecEffect m (sessionSummaryId db m.sessionId)) ∧
      db'.length = db.length := by
  refine ⟨db.map (editMessageSpecEffect m (sessionSummaryId db m.sessionId)),
    ?_, rfl, by simp⟩
  unfold edit_message
  rw [hfind]
  dsimp only
  rw [howned]
  rw [if_neg (by decide)]
  by_cases hms : m.isSummarized = true
  · rw [if_pos hms]
    cases hsum : (db.filter (fun x => x.sessionId == m.sessionId && x.isSummary
        && !x.isDeleted)).head? with
    | none =>
      dsimp only
      have hsid : sessionSummaryId db m.sessionId = none := by
        simp [sessionSummaryId, hsum]
      rw [hsid, editSteps_list_true_none db m hms]
    | some s =>
      dsimp only
      have hsid : sessionSummaryId db m.sessionId = some s.mid := by
        simp [sessionSummaryId, hsum]
      rw [hsid, editSteps_list_true_some db m s hms]
  · rw [if_neg hms]
    rw [editSteps_list_false db m (sessionSummaryId db m.sessionId)
      (Bool.not_eq_true _ ▸ hms)]

/-- C6 witness: editing a summarized user message (`mid 2`) of session 5:
the summary row (`mid 3`) and every later row are soft-deleted, the
summarized rows at or before it are restored, and no row is added. -/
theorem c6_edit_message_witness :
    ∃ db', edit_message
        [⟨1, 5, 1, "user", false, true, false, none⟩,
         ⟨2, 5, 2, "assistant", false, true, false, some 10⟩,
         ⟨3, 5, 3, "system", false, false, true, none⟩,
         ⟨4, 5, 4, "user", false, false, false, none⟩]
        (fun _ => true) 2 =
      some (db',
        (db'.filter (fun x => x.sessionId == 5 && !x.isDeleted)).length,
        calculate_current_context_tokens db' 5) ∧
      db' = [⟨1, 5, 1, "user", false, true, false, none⟩,
         ⟨2, 5, 2, "assistant", false, true, false, some 10⟩,
         ⟨3, 5, 3, "system", false, false, true, none⟩,
         ⟨4, 5, 4, "user", false, false, false, none⟩].map
        (editMessageSpecEffect ⟨2, 5, 2, "assistant", false, true, false, some 10⟩
          (sessionSummaryId [⟨1, 5, 1, "user", false, true, false, none⟩,
            ⟨2, 5, 2, "assistant", false, true, false, some 10⟩,
            ⟨3, 5, 3, "system", false, false, true, none⟩,
            ⟨4, 5, 4, "user", false, false, false, none⟩] 5)) ∧
      db'.length = 4 :=
  c6_edit_message _ (fun _ => true) 2
    ⟨2, 5, 2, "assistant", false, true, false, some 10⟩ (by decide) rfl

theorem generate_title_with_llm_bounds (modelFound : Bool)
    (response : List Char) :
    generate_title_with_llm modelFound response ≠ [] ∧
    (generate_title_with_llm modelFound response).length ≤ 30 := by
  unfold generate_title_with_llm
  cases modelFound with
  | false =>
    rw [if_pos (by decide)]
    exact ⟨by decide, by decide⟩
  | true =>
    rw [if_neg (by decide)]
    lift_lets
    extract_lets t1 t2 t3 t4 t5
    split
    · exact ⟨by decide, by decide⟩
    · split
      · exact ⟨by decide, by decide⟩
      · rename_i h1 h2
        simp only [Bool.or_eq_true, decide_eq_true_eq, not_or,
          List.isEmpty_eq_true] at h1
        simp only [decide_eq_true_eq, not_lt] at h2
        exact ⟨h1.1, h2⟩

/-- C8: (i) the fire-and-forget title job is scheduled exactly when a turn
finalizes normally with `session.message_count = 2` (the session's first
turn); (ii) the title the LLM post-processing produces is always non-empty
and at most 30 characters (an empty, too-short or over-length LLM output is
replaced by the default title); (iii) on completion of a scheduled job the
session title is stored and a `session_title_updated` frame (`event_type`
6000, `event_id` "0") is pushed over the WebSocket. -/
theorem c8_title_generation :
    (∀ (sessionExists modelExists : Bool) (mc : Nat) (skip : Bool)
        (chunks : List Chunk) (failAfter : Option Nat),
      (send_message_streaming sessionExists modelExists mc skip chunks
          failAfter).titleJobScheduled = true ↔
        (failAfter = none ∧ sessionExists = true ∧ modelExists = true ∧
          mc + (if skip then 0 else 1) + 1 = 2)) ∧
    (∀ (modelFound : Bool) (response : List Char),
      generate_title_with_llm modelFound response ≠ [] ∧
      (generate_title_with_llm modelFound response).length ≤ 30) ∧
    (∀ (mc n : Nat) (modelFound : Bool) (response : List Char),
      mc = 2 → 2 ≤ n →
      ∃ t, generate_title true mc n modelFound response = some (t, 0, 6000) ∧
        t ≠ [] ∧ t.length ≤ 30) := by
  refine ⟨?_, fun mf r => generate_title_with_llm_bounds mf r, ?_⟩
  · intro se me mc skip chunks failAfter
    cases se with
    | false => cases failAfter <;> simp [send_message_streaming]
    | true =>
      cases me with
      | false => cases failAfter <;> simp [send_message_streaming]
      | true =>
        cases failAfter with
        | none =>
          rw [sms_none_title_eq]
          have hmc : (emitEvent (processChunks (turnStreamState mc skip) chunks).1
              EventType.MESSAGE_DONE .messageDone).1.messageCount
              = mc + (if skip then 0 else 1) + 1 := by
            show (processChunks (turnStreamState mc skip) chunks).1.messageCount = _
            rw [processChunks_messageCount]
            rfl
          rw [hmc]
          simp
        | some k => simp [send_message_streaming]
  · intro mc n mf resp hmc hn
    subst hmc
    have hb := generate_title_with_llm_bounds mf resp
    refine ⟨generate_title_with_llm mf resp, ?_, hb.1, hb.2⟩
    unfold generate_title
    rw [if_neg (by decide), if_neg (by simp), if_neg (by omega),
      if_neg (by simp only [List.isEmpty_eq_true]; exact hb.1)]

/-- C8 witness: a first turn (`message_count` 0 → 2) schedules the job; a
concrete LLM output yields a stored, pushed, bounded title. -/
theorem c8_title_generation_witness :
    (send_message_streaming true true 0 false [] none).titleJobScheduled
      = true ∧
    generate_title_with_llm true "一个适中的标题".toList ≠ [] ∧
    (∃ t, generate_title true 2 2 true "一个适中的标题".toList =
        some (t, 0, 6000) ∧ t ≠ [] ∧ t.length ≤ 30) := by
  refine ⟨?_, ?_, ?_⟩
  · exact (c8_title_generation.1 true true 0 false [] none).mpr
      ⟨rfl, rfl, rfl, rfl⟩
  · exact (c8_title_generation.2.1 true _).1
  · exact c8_title_generation.2.2 2 2 true _ rfl (by omega)

theorem lookup_upsert : ∀ (l : List (String × Nat)) (k : String) (v : Nat),
    (upsert l k v).lookup k = some v
  | [], k, v => by simp [upsert]
  | (pk, pv) :: rest, k, v => by
    by_cases hp : (pk == k) = true
    · have hany : (((pk, pv) :: rest).any (fun q => q.1 == k)) = true := by
        simp only [List.any_cons, Bool.or_eq_true]
        exact Or.inl hp
      rw [upsert, if_pos hany]
      have hpk : pk = k := by simpa using hp
      subst hpk
      simp [List.lookup_cons]
    · by_cases hr : (rest.any (fun q => q.1 == k)) = true
      · have hany : (((pk, pv) :: rest).any (fun q => q.1 == k)) = true := by
          simp only [List.any_cons, Bool.or_eq_true]
          exact Or.inr hr
        rw [upsert, if_pos hany]
        have ih := lookup_upsert rest k v
        rw [upsert, if_pos hr] at ih
        have hkp : (k == pk) = false := by
          simp only [beq_eq_false_iff_ne]
          intro h
          subst h
          simp at hp
        simp only [List.map_cons, hp, if_neg, Bool.false_eq_true,
          not_false_eq_true, if_neg]
        rw [List.lookup_cons]
        simp only [hkp]
        exact ih
      · have hany : (((pk, pv) :: rest).any (fun q => q.1 == k)) = false := by
          simp only [List.any_cons, Bool.or_eq_false_iff]
          exact ⟨Bool.eq_false_iff.mpr hp, Bool.eq_false_iff.mpr hr⟩
        rw [upsert, if_neg (by simp [hany])]
        have ih := lookup_upsert rest k v
        rw [upsert, if_neg (by simp [hr])] at ih
        have hkp : (k == pk) = false := by
          simp only [beq_eq_false_iff_ne]
          intro h
          subst h
          simp at hp
        rw [List.cons_append, List.lookup_cons]
        simp only [hkp]
        exact ih

/-- The connection-manager state of the counterexample: user "u" is already
connected over websocket 1 with a running heartbeat task 0. -/
def c9DuplicateState : ConnManager :=
  { activeConnections := [("u", 1)]
    heartbeatTasks := [("u", 0)]
    acceptedSockets := [1]
    closedSockets := []
    cancelledTasks := []
    nextTask := 1 }

/-- C9, counterexample: with user "u" already connected over websocket 1, a
second `connect("u", websocket 2)` registers websocket 2 — but nothing is
closed: `ConnectionManager.connect` (`chat_ws.py:31-44`) contains no
`close()` call, so the older connection is left open (and its heartbeat
task is not even cancelled), contradicting "closes the older connection". -/
theorem c9_duplicate_connect_counterexample :
    ((c9DuplicateState.connect "u" 2).activeConnections.lookup "u"
      = some 2) ∧
    1 ∉ (c9DuplicateState.connect "u" 2).closedSockets ∧
    0 ∉ (c9DuplicateState.connect "u" 2).cancelledTasks := by
  refine ⟨rfl, ?_, ?_⟩ <;> simp [c9DuplicateState, ConnManager.connect]

/-- C9, amended: `connect` registers the new connection for the user,
silently replacing the map entry; the older WebSocket is never closed by
`connect` (its heartbeat-task entry is overwritten without cancellation —
only `disconnect` cancels). -/
theorem c9_duplicate_connect_amended (m : ConnManager) (userId : String)
    (ws : Nat) :
    (m.connect userId ws).activeConnections.lookup userId = some ws ∧
    (m.connect userId ws).closedSockets = m.closedSockets ∧
    (m.connect userId ws).cancelledTasks = m.cancelledTasks := by
  refine ⟨?_, rfl, rfl⟩
  show (upsert m.activeConnections userId ws).lookup userId = some ws
  exact lookup_upsert _ _ _

/-- C10: `MCPClient.call_tool` raises `ValueError` (models as
`CallToolError.valueError`) when no registered server lists the tool or
when an explicitly named server is not registered; it raises `RuntimeError`
when the resolved server answers `tools/call` with a JSON-RPC error object;
and it returns a `ToolCallResult` only when the resolved server answered
with a result. -/
theorem c10_client_call_tool (c : ClientModel) (toolName : String)
    (args : List (String × JValue)) :
    ((∀ p ∈ c.servers, ∀ ts, p.2.listToolsReply = .ok ts →
        ∀ t ∈ ts, t.name ≠ toolName) →
      ∃ msg, client_call_tool c toolName args none =
        .error (.valueError msg)) ∧
    (∀ sname, sname ≠ "" → c.servers.lookup sname = none →
      ∃ msg, client_call_tool c toolName args (some sname) =
        .error (.valueError msg)) ∧
    (∀ sname srv e, sname ≠ "" → c.servers.lookup sname = some srv →
      srv.callToolReply toolName args = .error e →
      ∃ msg, client_call_tool c toolName args (some sname) =
        .error (.runtimeError msg)) ∧
    (∀ r sname, client_call_tool c toolName args sname = .ok r →
      ∃ n srv, c.servers.lookup n = some srv ∧
        srv.callToolReply toolName args = .ok r) := by
  refine ⟨?_, ?_, ?_, ?_⟩
  · intro hnone
    have hfind : find_tool_server c toolName = none := by
      unfold find_tool_server
      rw [List.findSome?_eq_none_iff]
      intro p hp
      unfold list_all_tools at hp
      rw [List.mem_filterMap] at hp
      obtain ⟨q, hq, hqeq⟩ := hp
      cases hlt : q.2.listToolsReply with
      | error e => rw [hlt] at hqeq; cases hqeq
      | ok ts =>
        rw [hlt] at hqeq
        injection hqeq with hqeq
        subst hqeq
        refine if_neg (fun hC => ?_)
        simp only [List.any_eq_true, beq_iff_eq] at hC
        obtain ⟨t, ht, hteq⟩ := hC
        exact hnone q hq ts hlt t ht hteq
    refine ⟨"Tool " ++ toolName ++ " not found in any server", ?_⟩
    unfold client_call_tool
    rw [if_pos (show falsyName none = true from rfl), hfind]
  · intro sname hne hlook
    refine ⟨"Server " ++ sname ++ " not registered", ?_⟩
    unfold client_call_tool
    have hf : falsyName (some sname) = false := by simp [falsyName, hne]
    simp [hf, hlook]
  · intro sname srv e hne hlook hreply
    refine ⟨"Tool call failed: " ++ e, ?_⟩
    unfold client_call_tool
    have hf : falsyName (some sname) = false := by simp [falsyName, hne]
    simp [hf, hlook, hreply]
  · intro r sname hok
    unfold client_call_tool at hok
    by_cases hf : falsyName sname = true
    · rw [if_pos hf] at hok
      cases hres : find_tool_server c toolName with
      | none => simp [hres] at hok
      | some n =>
        simp only [hres] at hok
        cases hlook : c.servers.lookup n with
        | none => simp [hlook] at hok
        | some srv =>
          simp only [hlook] at hok
          cases hreply : srv.callToolReply toolName args with
          | error e => simp [hreply] at hok
          | ok r2 =>
            simp only [hreply] at hok
            injection hok with hok
            subst hok
            exact ⟨n, srv, hlook, hreply⟩
    · rw [if_neg hf] at hok
      cases sname with
      | none => exact absurd rfl hf
      | some n =>
        cases hlook : c.servers.lookup n with
        | none => simp [hlook] at hok
        | some srv =>
          simp only [hlook] at hok
          cases hreply : srv.callToolReply toolName args with
          | error e => simp [hreply] at hok
          | ok r2 =>
            simp only [hreply] at hok
            injection hok with hok
            subst hok
            exact ⟨n, srv, hlook, hreply⟩

/-- A concrete registered server used by the C10 witness: it lists one tool,
answers `get_weather` with a result, and anything else with a JSON-RPC
error object. -/
def demoWeatherServer : ServerModel :=
  { listToolsReply := .ok [⟨"get_weather"⟩]
    callToolReply := fun name _ =>
      if name == "get_weather" then
        .ok { isError := false, executedTool := true, text := "ok" }
      else .error "Method not found" }

def demoClient : ClientModel :=
  { servers := [("weather", demoWeatherServer)] }

/-- C10 witness: all four behaviours on a concrete client. -/
theorem c10_client_call_tool_witness :
    (∃ msg, client_call_tool demoClient "calculate" [] none =
      .error (.valueError msg)) ∧
    (∃ msg, client_call_tool demoClient "get_weather" [] (some "bogus") =
      .error (.valueError msg)) ∧
    (∃ msg, client_call_tool demoClient "calculate" [] (some "weather") =
      .error (.runtimeError msg)) ∧
    (∃ n srv, demoClient.servers.lookup n = some srv ∧
      srv.callToolReply "get_weather" [] =
        .ok { isError := false, executedTool := true, text := "ok" }) := by
  refine ⟨?_, ?_, ?_, ?_⟩
  · apply (c10_client_call_tool demoClient "calculate" []).1
    intro p hp ts hts t ht
    simp only [demoClient, demoWeatherServer, List.mem_cons,
      List.not_mem_nil, or_false] at hp
    subst hp
    simp only at hts
    injection hts with hts
    subst hts
    simp only [List.mem_cons, List.not_mem_nil, or_false] at ht
    subst ht
    decide
  · exact (c10_client_call_tool demoClient "get_weather" []).2.1 "bogus"
      (by decide) rfl
  · exact (c10_client_call_tool demoClient "calculate" []).2.2.1 "weather"
      demoWeatherServer "Method not found" (by decide) rfl rfl
  · exact (c10_client_call_tool demoClient "get_weather" []).2.2.2
      { isError := false, executedTool := true, text := "ok" } none rfl

end AgentSpec
